import Mathlib

/-!
Shallow embedding of the analytics routines of `src/backend.py`
(wealthpilot-pro): portfolio health scoring, AI insights, risk metrics,
rebalancing, dividend projection, efficient frontier and Monte Carlo
simulation, together with proofs settling the frozen claims about them.

Modelling conventions.
* Python floats are modelled as exact rationals (`ℚ`).  Claims that would
  depend on binary floating-point rounding are settled away from ties.
* `round(x, d)` (Python 3, round-half-to-even) is modelled by `roundTo`.
* Calls into the pseudorandom generator are modelled by explicit streams
  (`ℕ → ℚ`): a stream of standard-normal draws and a stream of unit-uniform
  draws, consumed at explicitly computed indices in program order.
* The real-valued `sqrt` and `exp` (numpy) have no exact rational
  counterpart; they are abstracted as function parameters of the embedding
  (an `AnalyticOps` record).  Every theorem below quantifies over them, so
  nothing proved depends on their values.
* A Python statement that raises (`ZeroDivisionError`, indexing an empty
  sequence) makes the embedded function return `none`; a normal return of a
  value `v` is `some v`.  Divisions that numpy performs on arrays (which
  produce `inf`/`nan` instead of raising) are modelled by total `ℚ`
  division; no claim inspects those quantities.
* Output dictionaries become structures; display-only message strings and
  numeric suffixes interpolated into titles are elided, all fields that any
  claim mentions are kept.
-/

namespace WealthPilot

/-- A holding row as the analytics functions consume it (`src/backend.py`):
`symbol`, `quantity`, `cost_basis`, `current_price`, `sector` (nullable in
the database, hence `Option`), `asset_type`, `dividend_yield`,
`annual_dividend`. -/
structure Holding where
  symbol : String
  quantity : ℚ
  cost_basis : ℚ
  current_price : ℚ
  sector : Option String := none
  asset_type : Option String := none
  dividend_yield : ℚ := 0
  annual_dividend : ℚ := 0
deriving DecidableEq, Repr

/-- Abstracted real-analytic operations (numpy `sqrt` and `exp`), which have
no exact rational counterpart.  All theorems quantify over this record. -/
structure AnalyticOps where
  sqrt : ℚ → ℚ
  exp : ℚ → ℚ

/-- Round-half-to-even to an integer, the rounding Python 3 `round` uses. -/
def rhe (x : ℚ) : ℤ :=
  if x - ⌊x⌋ < 1/2 then ⌊x⌋
  else if 1/2 < x - ⌊x⌋ then ⌊x⌋ + 1
  else if ⌊x⌋ % 2 = 0 then ⌊x⌋ else ⌊x⌋ + 1

/-- Model of Python `round(x, d)`. -/
def roundTo (d : ℕ) (x : ℚ) : ℚ := (rhe (x * 10 ^ d) : ℚ) / 10 ^ d

/-- Stable insertion of `x` into `l`: `x` goes before the first element whose
key is strictly larger, hence after all earlier elements with equal keys. -/
def insertOn (key : α → ℚ) (x : α) : List α → List α
  | [] => [x]
  | y :: ys => if key y < key x then y :: insertOn key x ys else x :: y :: ys

/-- Stable sort by a rational key, ascending: the model of Python
`sorted(l, key=...)` (descending sorts use a negated key). -/
def sortOn (key : α → ℚ) : List α → List α
  | [] => []
  | x :: xs => insertOn key x (sortOn key xs)

/-- Model of the repeated Python idiom
`d[k] = d.get(k, 0) + v` on an insertion-ordered dict. -/
def bump (k : String) (v : ℚ) : List (String × ℚ) → List (String × ℚ)
  | [] => [(k, v)]
  | (k', v') :: t => if k' = k then (k', v' + v) :: t else (k', v') :: bump k v t

/-- Sector buckets of dollar value, as built by the loops
`sectors[sector] = sectors.get(sector, 0) + h["quantity"] * h["current_price"]`
with `sector = h.get("sector", "Other")`. -/
def sectorBuckets (hs : List Holding) : List (String × ℚ) :=
  hs.foldl (fun acc h => bump (h.sector.getD "Other") (h.quantity * h.current_price) acc) []

/-- Total market value `sum(h["quantity"] * h["current_price"] for h in holdings)`. -/
def totalValue (hs : List Holding) : ℚ := (hs.map (fun h => h.quantity * h.current_price)).sum

/-- Total cost basis `sum(h["cost_basis"] * h["quantity"] for h in holdings)`. -/
def totalCost (hs : List Holding) : ℚ := (hs.map (fun h => h.cost_basis * h.quantity)).sum

/-- Python `max` over a list (raises on the empty list, hence `Option`). -/
def pymax : List ℚ → Option ℚ
  | [] => none
  | x :: t => some (t.foldl max x)

/-- Python `min` over a list (raises on the empty list, hence `Option`). -/
def pymin : List ℚ → Option ℚ
  | [] => none
  | x :: t => some (t.foldl min x)

/-- Mean of a list of rationals, `np.mean` (junk value 0 on `[]`, a case no
caller below reaches with the guards the source has). -/
def meanQ (l : List ℚ) : ℚ := l.sum / l.length

/-- The five factor values of the health score, in the insertion order of the
`scores` dict in the source. -/
structure HealthFactors where
  diversification : ℚ
  risk_adjusted : ℚ
  income_quality : ℚ
  tax_efficiency : ℚ
  concentration : ℚ
deriving DecidableEq, Repr

/-- Result dict of `calculate_portfolio_health_score`; `factors = none`
models the empty `factors` dict returned for an empty holdings list. -/
structure HealthResult where
  score : ℚ
  grade : String
  factors : Option HealthFactors
deriving DecidableEq, Repr

/-- Letter grade thresholds, the chained conditional of the source. -/
def healthGrade (total : ℚ) : String :=
  if total ≥ 90 then "A+" else if total ≥ 80 then "A" else if total ≥ 70 then "B+"
  else if total ≥ 60 then "B" else if total ≥ 50 then "C+" else if total ≥ 40 then "C" else "D"

/-- Block 1 of `calculate_portfolio_health_score`: per-sector dollar
weights, Herfindahl index, `min(25, (1 - herfindahl) * 30)` when the total
value is positive, else 0.  (`total_value` is `sum(sectors.values())`.) -/
def diversificationScore (holdings : List Holding) : ℚ :=
  let sectors := sectorBuckets holdings
  let total_value := (sectors.map (·.2)).sum
  if total_value > 0 then
    let weights := sectors.map (fun s => s.2 / total_value)
    let herfindahl := (weights.map (fun w => w ^ 2)).sum
    min 25 ((1 - herfindahl) * 30)
  else 0

/-- The per-holding simple returns of block 2 (`0` when the cost basis is
not positive). -/
def holdingGains (holdings : List Holding) : List ℚ :=
  holdings.map (fun h =>
    if h.cost_basis > 0 then (h.current_price - h.cost_basis) / h.cost_basis else 0)

/-- Block 2 of `calculate_portfolio_health_score`: the pseudo-Sharpe clamp
`min(25, max(0, (sharpe + 1) * 12.5))`; `np.std` (its square root
abstracted as `sqrtA`) defaults to 0.2 for fewer than 2 holdings. -/
def riskAdjustedScore (sqrtA : ℚ → ℚ) (holdings : List Holding) : ℚ :=
  let gains := holdingGains holdings
  let avg_return := if gains = [] then 0 else meanQ gains
  let volatility :=
    if gains.length > 1 then sqrtA ((gains.map (fun g => (g - meanQ gains) ^ 2)).sum / gains.length)
    else 1/5
  let sharpe := if volatility > 0 then avg_return / volatility else 0
  min 25 (max 0 ((sharpe + 1) * (25/2)))

/-- Block 3 of `calculate_portfolio_health_score`:
`min(20, yield_on_cost * 400)` (the quotient by the total cost basis is
taken here as total rational division; the caller checks the crash case). -/
def incomeQualityScore (holdings : List Holding) : ℚ :=
  let total_income := (holdings.map (fun h => h.annual_dividend * h.quantity)).sum
  min 20 (total_income / totalCost holdings * 400)

/-- Block 4 of `calculate_portfolio_health_score`: flat 15 when any
unrealized loss exists, else 10. -/
def taxEfficiencyScore (holdings : List Holding) : ℚ :=
  let unrealized_losses := ((holdings.filter (fun h => h.current_price < h.cost_basis)).map
    (fun h => (h.cost_basis - h.current_price) * h.quantity)).sum
  if unrealized_losses > 0 then 15 else 10

/-- Block 5 of `calculate_portfolio_health_score`:
`max(0, 15 - max_weight * 20)`; the Python `max(...)` ranges over a
generator that is non-empty whenever the guard `total_value > 0` holds. -/
def concentrationScore (holdings : List Holding) : ℚ :=
  let total_value := ((sectorBuckets holdings).map (·.2)).sum
  if total_value > 0 then
    match pymax (holdings.map (fun h => h.quantity * h.current_price / total_value)) with
    | some max_weight => max 0 (15 - max_weight * 20)
    | none => 0   -- unreachable: total_value > 0 forces holdings nonempty
  else 0

/-- Embedding of `calculate_portfolio_health_score(holdings, user_prefs)`
(`src/backend.py`), assembled from the five block definitions above (which
mirror the five numbered sections of the source; the source binds
`sectors`/`total_value` once and the blocks re-derive them, identically).
`sqrtA` abstracts `np.std`'s square root.  The ignored `user_prefs`
argument is dropped.  Returns `none` exactly where the source raises
`ZeroDivisionError`: the income-quality quotient divides by
`sum(cost_basis * quantity)` guarded only by `if holdings`, so a non-empty
list with zero total cost basis crashes. -/
def calculate_portfolio_health_score (sqrtA : ℚ → ℚ) (holdings : List Holding) :
    Option HealthResult :=
  match holdings with
  | [] => some { score := 0, grade := "N/A", factors := none }
  | _ =>
    if totalCost holdings = 0 then none
    else
      let f : HealthFactors :=
        { diversification := roundTo 1 (diversificationScore holdings)
          risk_adjusted := roundTo 1 (riskAdjustedScore sqrtA holdings)
          income_quality := roundTo 1 (incomeQualityScore holdings)
          tax_efficiency := roundTo 1 (taxEfficiencyScore holdings)
          concentration := roundTo 1 (concentrationScore holdings) }
      let total_score := f.diversification + f.risk_adjusted + f.income_quality +
        f.tax_efficiency + f.concentration
      some { score := roundTo 1 total_score, grade := healthGrade total_score,
             factors := some f }

/-- An insight record of `generate_ai_insights`.  The display-only `message`
string (and the numeric suffix interpolated into the Big Winner title) is
elided; `itype` is the `"type"` key; `priority` is absent (`none`) on the
Get Started item, as in the source dict. -/
structure Insight where
  itype : String
  title : String
  action : String
  priority : Option ℕ := none
  symbol : Option String := none
  loss : Option ℚ := none
  tax_savings : Option ℚ := none
deriving DecidableEq, Repr

/-- The list comprehension
`[h for h in holdings if (h["current_price"] - h["cost_basis"]) / h["cost_basis"] > 1.0]`:
the quotient is unguarded, so a holding with zero cost basis raises
`ZeroDivisionError` (`none`). -/
def bigWinners : List Holding → Option (List Holding)
  | [] => some []
  | h :: t =>
    if h.cost_basis = 0 then none
    else
      (bigWinners t).map (fun r =>
        if (h.current_price - h.cost_basis) / h.cost_basis > 1 then h :: r else r)

/-- Sort key of the final `sorted(insights, key=lambda x: x.get("priority", 99))`. -/
def insightPriority (i : Insight) : ℚ := ((i.priority.getD 99 : ℕ) : ℚ)

/-- Embedding of `generate_ai_insights(holdings, user_prefs)` (`src/backend.py`).
The ignored `user_prefs` argument is dropped.  `none` models the
`ZeroDivisionError` raised by the unguarded quotient in the big-winner rule
when some holding has zero cost basis. -/
def generate_ai_insights (holdings : List Holding) : Option (List Insight) :=
  match holdings with
  | [] => some [{ itype := "info", title := "Get Started", action := "add_holding" }]
  | _ =>
    let total_value := totalValue holdings
    -- 1. concentration risk, one warning per heavy holding
    let conc := holdings.filterMap (fun h =>
      let weight := if total_value > 0 then h.quantity * h.current_price / total_value else 0
      if weight > 15/100 then
        some { itype := "warning", title := "High Concentration: " ++ h.symbol,
               action := "rebalance", priority := some 1 }
      else none)
    -- 2. tax-loss harvesting, only for losses strictly over $500
    let tlh := holdings.filterMap (fun h =>
      let unrealized_loss := (h.cost_basis - h.current_price) * h.quantity
      if unrealized_loss > 500 then
        some { itype := "opportunity", title := "Tax-Loss Harvesting: " ++ h.symbol,
               action := "tlh", priority := some 2, symbol := some h.symbol,
               loss := some unrealized_loss, tax_savings := some (unrealized_loss * (24/100)) }
      else none)
    -- 3. sector allocation
    let sectors := sectorBuckets holdings
    let sectorIns := sectors.filterMap (fun s =>
      let weight := if total_value > 0 then s.2 / total_value else 0
      if weight > 30/100 then
        some { itype := "warning", title := "Sector Overweight: " ++ s.1,
               action := "diversify", priority := some 2 }
      else none)
    -- 4. income optimization
    let low_yield := holdings.filter (fun h =>
      h.dividend_yield < 1/100 ∧ h.quantity * h.current_price > 5000)
    let incomeIns : List Insight :=
      if low_yield ≠ [] ∧ ((low_yield.length : ℚ) > (holdings.length : ℚ) * (1/2)) then
        [{ itype := "info", title := "Income Opportunity", action := "income",
           priority := some 3 }]
      else []
    -- 5. winners to trim (the unguarded quotient lives here)
    match bigWinners holdings with
    | none => none
    | some ws =>
      let winners := ws.map (fun h =>
        { itype := "info", title := "Big Winner: " ++ h.symbol, action := "trim",
          priority := some 3 : Insight })
      some ((sortOn insightPriority (conc ++ tlh ++ sectorIns ++ incomeIns ++ winners)).take 10)

/-- A rebalancing action dict of `generate_rebalance_recommendations`. -/
structure RebalanceRec where
  sector : String
  action : String
  current_pct : ℚ
  target_pct : ℚ
  amount : ℚ
  holdings : List String
deriving DecidableEq, Repr

/-- Python `list(set(...))` of the observed sectors, modelled as
first-occurrence deduplication (set iteration order is unspecified; no claim
depends on it). -/
def observedSectors (hs : List Holding) : List String :=
  (hs.map (fun h => h.sector.getD "Other")).eraseDups

/-- Python `current.get(sector, 0)` on the sector-bucket dict. -/
def bucketGet (k : String) (l : List (String × ℚ)) : ℚ :=
  ((l.find? (fun p => p.1 = k)).map (·.2)).getD 0

/-- Embedding of `generate_rebalance_recommendations(holdings, target_allocation)`
(`src/backend.py`).  `target = none` (or `some []`) models the falsy default
that triggers equal weighting across observed sectors. -/
def generate_rebalance_recommendations (holdings : List Holding)
    (target : Option (List (String × ℚ))) : List RebalanceRec :=
  match holdings with
  | [] => []
  | _ =>
    let target_allocation :=
      match target with
      | none => (observedSectors holdings).map (fun s =>
          (s, (1 : ℚ) / (observedSectors holdings).length))
      | some [] => (observedSectors holdings).map (fun s =>
          (s, (1 : ℚ) / (observedSectors holdings).length))
      | some t => t
    let total_value := totalValue holdings
    if total_value = 0 then []
    else
      let current := sectorBuckets holdings
      let recs := target_allocation.filterMap (fun st =>
        let current_pct := bucketGet st.1 current / total_value
        let diff := st.2 - current_pct
        if |diff| > 2/100 then
          some { sector := st.1
                 action := if diff > 0 then "buy" else "sell"
                 current_pct := roundTo 1 (current_pct * 100)
                 target_pct := roundTo 1 (st.2 * 100)
                 amount := roundTo 2 (|diff| * total_value)
                 holdings := (holdings.filter (fun h => h.sector = some st.1)).map (·.symbol) }
        else none)
      sortOn (fun r => -|r.current_pct - r.target_pct|) recs

/-- A top-payer row of `project_dividend_income`. -/
structure TopPayer where
  symbol : String
  annual : ℚ
  yld : ℚ
  pct_of_income : ℚ
deriving DecidableEq, Repr

/-- The 5-iteration growth loop of `project_dividend_income`: append
`(year, round(current, 2))` then multiply `current` by 1.06. -/
def growthProj (year : ℕ) (remaining : ℕ) (current : ℚ) : List (ℕ × ℚ) :=
  match remaining with
  | 0 => []
  | n + 1 => (year, roundTo 2 current) :: growthProj (year + 1) n (current * (106/100))

/-- Result dict of `project_dividend_income`. -/
structure IncomeProjection where
  annual_income : ℚ
  monthly_average : ℚ
  monthly_breakdown : List ℚ
  top_payers : List TopPayer
  yield_on_cost : ℚ
  projections : List (ℕ × ℚ)
deriving DecidableEq, Repr

/-- Outcome of `project_dividend_income`: the literal empty dict returned for
an empty holdings list, or a populated result. -/
inductive IncomeOut where
  | emptyDict
  | result (r : IncomeProjection)
deriving DecidableEq, Repr

/-- Embedding of `project_dividend_income(holdings)` (`src/backend.py`).
`u` is the stream of `random.random()` unit draws behind
`random.uniform(-0.1, 0.1)`, one per month.  Returns `none` exactly where
the source raises: the yield-on-cost quotient divides by
`sum(cost_basis * quantity)` guarded only by `if holdings`, so a non-empty
list with zero total cost basis raises `ZeroDivisionError`. -/
def project_dividend_income (u : ℕ → ℚ) (holdings : List Holding) :
    Option IncomeOut :=
  match holdings with
  | [] => some .emptyDict
  | _ =>
    let annual_income := (holdings.map (fun h => h.annual_dividend * h.quantity)).sum
    let monthly_income := (List.range 12).map (fun month =>
      roundTo 2 ((annual_income / 12) * (1 + (-(1/10) + (2/10) * u month))))
    let div_holdings := sortOn (fun h => -(h.annual_dividend * h.quantity)) holdings
    let top_payers := (div_holdings.take 10).map (fun h =>
      { symbol := h.symbol
        annual := roundTo 2 (h.annual_dividend * h.quantity)
        yld := roundTo 2 (h.dividend_yield * 100)
        pct_of_income := if annual_income > 0 then
            roundTo 1 (h.annual_dividend * h.quantity / annual_income * 100)
          else 0 : TopPayer })
    let projections := growthProj 0 6 annual_income
    let denom := totalCost holdings
    if denom = 0 then none
    else
      some (.result
        { annual_income := roundTo 2 annual_income
          monthly_average := roundTo 2 (annual_income / 12)
          monthly_breakdown := monthly_income
          top_payers := top_payers
          yield_on_cost := roundTo 2 (annual_income / denom * 100)
          projections := projections })

/-- Population standard deviation `np.std` (default `ddof=0`), with the
square root abstracted. -/
def npstd (sqrtA : ℚ → ℚ) (l : List ℚ) : ℚ :=
  sqrtA ((l.map (fun x => (x - meanQ l) ^ 2)).sum / l.length)

/-- Population variance `np.var` (default `ddof=0`). -/
def npvarP (l : List ℚ) : ℚ := (l.map (fun x => (x - meanQ l) ^ 2)).sum / l.length

/-- Sample covariance, the off-diagonal entry of `np.cov(x, y)`
(default `ddof=1`). -/
def covS (xs ys : List ℚ) : ℚ :=
  (List.zipWith (fun a b => (a - meanQ xs) * (b - meanQ ys)) xs ys).sum / ((xs.length : ℚ) - 1)

/-- Helper for `np.cumprod`. -/
def cumprodAux (acc : ℚ) : List ℚ → List ℚ
  | [] => []
  | x :: t => (acc * x) :: cumprodAux (acc * x) t

/-- Model of `np.cumprod`. -/
def cumprod (l : List ℚ) : List ℚ := cumprodAux 1 l

/-- Helper for `np.maximum.accumulate`. -/
def runMaxAux (m : ℚ) : List ℚ → List ℚ
  | [] => []
  | x :: t => (max m x) :: runMaxAux (max m x) t

/-- Model of `np.maximum.accumulate`. -/
def runMax : List ℚ → List ℚ
  | [] => []
  | x :: t => x :: runMaxAux x t

/-- Model of `np.percentile(l, q)` with its default linear interpolation
(raises on an empty array, hence `Option`). -/
def npPercentile (l : List ℚ) (q : ℚ) : Option ℚ :=
  match sortOn id l with
  | [] => none
  | x :: t =>
    let s := x :: t
    let pos := q / 100 * ((s.length : ℚ) - 1)
    let fr := pos - (⌊pos⌋ : ℚ)
    let vlo := s.getD (⌊pos⌋).toNat x
    some (vlo + fr * (s.getD ((⌊pos⌋).toNat + 1) vlo - vlo))

/-- Result dict of `calculate_risk_metrics`. -/
structure RiskMetrics where
  annual_return : ℚ
  annual_volatility : ℚ
  sharpe_ratio : ℚ
  sortino_ratio : ℚ
  max_drawdown : ℚ
  var_95 : ℚ
  beta : ℚ
  alpha : ℚ
deriving DecidableEq, Repr

/-- Embedding of `calculate_risk_metrics(holdings)` (`src/backend.py`).
`g` is the stream of standard-normal draws behind `np.random.normal`:
holding `i` consumes indices `i*252+d`, the market series the following 252.
`none` models the literal empty dict `{}` (returned only for the empty
holdings list; every later quotient is a numpy array or a guarded scalar, so
no later path raises).  A zero total value yields `inf`/`nan` entries in
numpy, modelled by total rational division; no claim inspects them. -/
def calculate_risk_metrics (ops : AnalyticOps) (g : ℕ → ℚ) (holdings : List Holding) :
    Option RiskMetrics :=
  match holdings with
  | [] => none
  | _ =>
    let returns := holdings.enum.map (fun ih =>
      (List.range 252).map (fun d =>
        (4/10000 + 15/1000 * g (ih.1 * 252 + d)) * (ih.2.quantity * ih.2.current_price)))
    if returns = [] then none   -- the second (dead) emptiness re-check of the source
    else
      -- np.sum(returns, axis=0) / total value; every row has length 252,
      -- so the day-wise getD never falls back to its default
      let pr := (List.range 252).map (fun d =>
        (returns.map (fun row => row.getD d 0)).sum / totalValue holdings)
      let annual_return := meanQ pr * 252 * 100
      let annual_volatility := npstd ops.sqrt pr * ops.sqrt 252 * 100
      let sharpe := if annual_volatility > 0 then (annual_return - 2) / annual_volatility else 0
      let negatives := pr.filter (· < 0)
      let downside :=
        if negatives.length > 0 then npstd ops.sqrt negatives * ops.sqrt 252 * 100
        else annual_volatility
      let sortino := if downside > 0 then (annual_return - 2) / downside else 0
      let cumulative := cumprod (pr.map (fun r => 1 + r))
      let peak := runMax cumulative
      let drawdown := List.zipWith (fun c p => (c - p) / p) cumulative peak
      let max_drawdown := (pymin drawdown).getD 0 * 100   -- 252 entries, never empty
      let var_95 := (npPercentile pr 5).getD 0 * 100      -- 252 entries, never empty
      let market := (List.range 252).map (fun d =>
        3/10000 + 12/1000 * g (holdings.length * 252 + d))
      let covariance := covS pr market
      let market_variance := npvarP market
      let beta := if market_variance > 0 then covariance / market_variance else 1
      some { annual_return := roundTo 2 annual_return
             annual_volatility := roundTo 2 annual_volatility
             sharpe_ratio := roundTo 2 sharpe
             sortino_ratio := roundTo 2 sortino
             max_drawdown := roundTo 2 max_drawdown
             var_95 := roundTo 2 var_95
             beta := roundTo 2 beta
             alpha := roundTo 2 (annual_return - (2 + beta * 8)) }

/-- Dot product `np.dot` of two equal-length vectors given as lists. -/
def dotQ (xs ys : List ℚ) : ℚ := (List.zipWith (· * ·) xs ys).sum

/-- First index of `x` in a list, Python `l.index(x)` (always found where
used below; an absent element would raise in Python). -/
def pyIndexOf [DecidableEq α] (x : α) : List α → ℕ
  | [] => 0
  | y :: t => if y = x then 0 else pyIndexOf x t + 1

/-- Helper for `pyArgmin`. -/
def pyArgminGo (key : α → ℚ) : List α → ℕ → ℕ → ℚ → ℕ
  | [], _, bi, _ => bi
  | x :: t, i, bi, bv =>
    if key x < bv then pyArgminGo key t (i + 1) i (key x)
    else pyArgminGo key t (i + 1) bi bv

/-- Python `min(range(len(l)), key=lambda i: key(l[i]))`: the first index of
a minimal element (0 on `[]`, where Python would raise; unreachable below). -/
def pyArgmin (key : α → ℚ) : List α → ℕ
  | [] => 0
  | x :: t => pyArgminGo key t 1 0 (key x)

/-- One sampled random portfolio on the frontier. -/
structure FrontierPoint where
  ret : ℚ
  vol : ℚ
  sharpe : ℚ
deriving DecidableEq, Repr

/-- The `optimal_portfolio` / `min_variance_portfolio` summaries (the
`weights` dict becomes an insertion-ordered association list). -/
structure PortfolioSummary where
  weights : List (String × ℚ)
  expected_return : ℚ
  volatility : ℚ
  sharpe_ratio : ℚ
deriving DecidableEq, Repr

/-- The `current_portfolio` summary. -/
structure CurrentPortfolio where
  expected_return : ℚ
  volatility : ℚ
  sharpe_ratio : ℚ
deriving DecidableEq, Repr

/-- Populated result of `calculate_efficient_frontier`. -/
structure Frontier where
  frontier_points : List FrontierPoint
  optimal_portfolio : PortfolioSummary
  min_variance_portfolio : PortfolioSummary
  current_portfolio : CurrentPortfolio
  symbols : List String
deriving DecidableEq, Repr

/-- Outcome of `calculate_efficient_frontier`: the explicit error dict or a
populated result. -/
inductive FrontierOut where
  | error (msg : String)
  | ok (r : Frontier)
deriving DecidableEq, Repr

/-- Embedding of `calculate_efficient_frontier(holdings, num_portfolios)`
(`src/backend.py`).  The source reseeds the global generator with
`np.random.seed(42)`; `g` and `u` model the post-seed standard-normal and
unit-uniform draws (asset `i` consumes normals `i*252+d`, portfolio `k`
consumes uniforms `k*n_assets+i`).  `none` models the `IndexError` raised by
`results_df[0]` when `num_portfolios = 0`; weight normalisation and the
Sharpe quotient are numpy divisions (`inf`/`nan`, never raising), modelled
by total rational division. -/
def calculate_efficient_frontier (ops : AnalyticOps) (g u : ℕ → ℚ)
    (holdings : List Holding) (num_portfolios : ℕ) : Option FrontierOut :=
  if holdings.length < 2 then
    some (.error "Need at least 2 holdings for optimization")
  else
    let n_assets := min holdings.length 15
    let hs := holdings.take n_assets
    let col := fun (i : ℕ) (h : Holding) =>
      let base : ℚ := if h.asset_type = some "Equity" then 4/10000 else 2/10000
      let vola : ℚ := if h.asset_type = some "Equity" then 2/100 else 1/100
      (List.range 252).map (fun d => base + vola * g (i * 252 + d))
    let cols := hs.enum.map (fun ih => col ih.1 ih.2)
    let mean_returns := cols.map (fun c => meanQ c * 252)
    -- np.cov(returns_matrix.T) * 252, ddof = 1
    let covM := fun (i j : ℕ) =>
      covS (cols.getD i []) (cols.getD j []) * 252
    let idx := List.range n_assets
    let points := (List.range num_portfolios).map (fun k =>
      let w := idx.map (fun i => u (k * n_assets + i))
      let wn := w.map (fun x => x / w.sum)
      let portfolio_return := dotQ wn mean_returns
      let portfolio_volatility := ops.sqrt
        ((idx.map (fun i => wn.getD i 0 *
          (idx.map (fun j => covM i j * wn.getD j 0)).sum)).sum)
      let sharpe := (portfolio_return - 2/100) / portfolio_volatility
      (({ ret := roundTo 2 (portfolio_return * 100)
          vol := roundTo 2 (portfolio_volatility * 100)
          sharpe := roundTo 3 sharpe : FrontierPoint}, wn)))
    let results := points.map (·.1)
    match results with
    | [] => none   -- results_df[0] raises IndexError when num_portfolios = 0
    | r0 :: _ =>
      let results_df := sortOn (fun r => -(r.sharpe)) results
      let best := results_df.headD r0
      let max_sharpe_idx := pyIndexOf best results
      let min_vol_idx := pyArgmin (fun r => r.vol) results
      let weights_record := points.map (·.2)
      let weightsDict := fun (k : ℕ) =>
        idx.map (fun i =>
          ((hs.getD i { symbol := "", quantity := 0, cost_basis := 0, current_price := 0 }).symbol,
            roundTo 1 ((weights_record.getD k []).getD i 0 * 100)))
      let current_weights := hs.map (fun h =>
        h.quantity * h.current_price / totalValue hs)
      let current_return := dotQ current_weights mean_returns * 100
      let current_vol := ops.sqrt
        ((idx.map (fun i => current_weights.getD i 0 *
          (idx.map (fun j => covM i j * current_weights.getD j 0)).sum)).sum) * 100
      let current_sharpe := (current_return / 100 - 2/100) / (current_vol / 100)
      some (.ok
        { frontier_points := results
          optimal_portfolio :=
            { weights := weightsDict max_sharpe_idx
              expected_return := best.ret
              volatility := best.vol
              sharpe_ratio := best.sharpe }
          min_variance_portfolio :=
            { weights := weightsDict min_vol_idx
              expected_return := (results.getD min_vol_idx r0).ret
              volatility := (results.getD min_vol_idx r0).vol
              sharpe_ratio := (results.getD min_vol_idx r0).sharpe }
          current_portfolio :=
            { expected_return := roundTo 2 current_return
              volatility := roundTo 2 current_vol
              sharpe_ratio := roundTo 3 current_sharpe }
          symbols := hs.map (·.symbol) })

/-- The percentile block of the Monte Carlo result. -/
structure Percentiles where
  p5 : ℚ
  p25 : ℚ
  p50 : ℚ
  p75 : ℚ
  p95 : ℚ
deriving DecidableEq, Repr

/-- Populated result of `run_monte_carlo_simulation`. -/
structure Simulation where
  initial_value : ℚ
  years : ℕ
  simulations : ℕ
  percentiles : Percentiles
  expected_value : ℚ
  median_value : ℚ
  best_case : ℚ
  worst_case : ℚ
  prob_double : ℚ
  prob_loss : ℚ
  sample_paths : List (List ℚ)
  years_labels : List ℕ
deriving DecidableEq, Repr

/-- Outcome of `run_monte_carlo_simulation`: the explicit error dict or a
populated result. -/
inductive MCOut where
  | error (msg : String)
  | ok (r : Simulation)
deriving DecidableEq, Repr

/-- Whether a Monte Carlo outcome is the error dict. -/
def MCOut.isErr : MCOut → Bool
  | .error _ => true
  | .ok _ => false

/-- The inner geometric-Brownian-motion loop: successive prices after the
initial one, one `np.random.normal()` draw per step. -/
def mcPathAux (f : ℕ → ℚ) (t : ℕ) (remaining : ℕ) (cur : ℚ) : List ℚ :=
  match remaining with
  | 0 => []
  | n + 1 =>
    let nxt := cur * f t
    nxt :: mcPathAux f (t + 1) n nxt

/-- Embedding of `run_monte_carlo_simulation(holdings, years, simulations)`
(`src/backend.py`).  `g` is the stream of standard-normal draws (simulation
`sim` consumes indices `sim*trading_days+t`); `exp` and `sqrt` come from
`ops`.  The guard is `if not holdings`: only the empty list yields the error
dict.  `none` models the `IndexError` of `np.percentile` on an empty array
when `simulations = 0`. -/
def run_monte_carlo_simulation (ops : AnalyticOps) (g : ℕ → ℚ)
    (holdings : List Holding) (years : ℕ) (simulations : ℕ) : Option MCOut :=
  match holdings with
  | [] => some (.error "No holdings for simulation")
  | _ =>
    let total_value := totalValue holdings
    let trading_days := years * 252
    let dt : ℚ := 1/252
    let drift := (8/100 - (1/2) * (18/100) ^ 2) * dt
    let all_paths := (List.range simulations).map (fun sim =>
      total_value :: mcPathAux
        (fun t => ops.exp (drift + (18/100) * ops.sqrt dt * g (sim * trading_days + t)))
        0 trading_days total_value)
    let final_values := all_paths.map (fun p => p.getLastD 0)
    match final_values with
    | [] => none
    | f0 :: ft =>
      let fs := f0 :: ft
      let pct := fun (q : ℚ) => (npPercentile fs q).getD 0   -- fs non-empty, never defaults
      let percentiles : Percentiles :=
        { p5 := roundTo 2 (pct 5), p25 := roundTo 2 (pct 25), p50 := roundTo 2 (pct 50),
          p75 := roundTo 2 (pct 75), p95 := roundTo 2 (pct 95) }
      let sample_indices :=
        ([0, 252, 504, 756, 1008, 1260, 1512, 1764, 2016, 2268, 2520] : List ℕ).take (years + 1)
      let sample_paths := (all_paths.take 100).map (fun path =>
        (sample_indices.filter (fun i => i < path.length)).map
          (fun i => roundTo 2 (path.getD i 0)))
      let prob_double :=
        ((fs.filter (fun v => v ≥ total_value * 2)).length : ℚ) / (simulations : ℚ) * 100
      let prob_loss :=
        ((fs.filter (fun v => v < total_value)).length : ℚ) / (simulations : ℚ) * 100
      some (.ok
        { initial_value := roundTo 2 total_value
          years := years
          simulations := simulations
          percentiles := percentiles
          expected_value := roundTo 2 (meanQ fs)
          median_value := percentiles.p50
          best_case := roundTo 2 ((pymax fs).getD 0)
          worst_case := roundTo 2 ((pymin fs).getD 0)
          prob_double := roundTo 1 prob_double
          prob_loss := roundTo 1 prob_loss
          sample_paths := sample_paths.take 20
          years_labels := List.range (years + 1) })

/-! Concrete fixtures used by witnesses and counterexamples. -/

/-- The worked example of the spec: 10 shares, cost 100, price 50, Tech,
no dividend. -/
def aaa : Holding :=
  { symbol := "AAA", quantity := 10, cost_basis := 100, current_price := 50,
    sector := some "Tech", dividend_yield := 0, annual_dividend := 0 }

/-- A second distinct holding, used where two holdings are needed. -/
def bbb : Holding :=
  { symbol := "BBB", quantity := 5, cost_basis := 20, current_price := 30,
    sector := some "Health", dividend_yield := 1/50, annual_dividend := 1 }

/-- A holding with zero cost basis (the data model treats 0 as `unknown`). -/
def zeroCB : Holding :=
  { symbol := "ZZZ", quantity := 10, cost_basis := 0, current_price := 50,
    sector := some "Tech" }

/-- A holding priced negatively, paired with `posTech` below. -/
def negFin : Holding :=
  { symbol := "NNN", quantity := 1, cost_basis := 1, current_price := -1,
    sector := some "Fin" }

/-- A gaining Tech holding, paired with `negFin`. -/
def posTech : Holding :=
  { symbol := "PPP", quantity := 1, cost_basis := 1, current_price := 2,
    sector := some "Tech" }

/-- A holding entirely in the sector `Other`, for the rebalance example. -/
def otherOnly : Holding :=
  { symbol := "OOO", quantity := 1, cost_basis := 1, current_price := 100,
    sector := some "Other" }

/-- Trivial instantiation of the abstracted square root / exponential. -/
def ops0 : AnalyticOps := { sqrt := fun _ => 0, exp := fun _ => 1 }

/-- Trivial instantiation of the abstracted square root alone. -/
def s0 : ℚ → ℚ := fun _ => 0

/-- Constant standard-normal stream. -/
def g0 : ℕ → ℚ := fun _ => 0

/-- Constant unit-uniform stream. -/
def u0 : ℕ → ℚ := fun _ => 1/2


/-! State-passing forms.  The bodies of the seven analytics functions in
`src/backend.py` contain no statement that assigns into a holding dict or
into the holdings list itself: every assignment binds a fresh local,
`sorted(...)` and slicing copy, and the frontier routine only rebinds its
local parameter name (`holdings = holdings[:n_assets]`), which the caller
never sees.  The state-passing embeddings below therefore pair each result
with the holdings list as the call leaves it, which is the input list. -/

/-- `calculate_portfolio_health_score` with the caller-visible holdings list
threaded through. -/
def calculate_portfolio_health_score_run (sqrtA : ℚ → ℚ) (hs : List Holding) :
    Option HealthResult × List Holding :=
  (calculate_portfolio_health_score sqrtA hs, hs)

/-- `generate_ai_insights` with the holdings list threaded through. -/
def generate_ai_insights_run (hs : List Holding) :
    Option (List Insight) × List Holding :=
  (generate_ai_insights hs, hs)

/-- `calculate_risk_metrics` with the holdings list threaded through. -/
def calculate_risk_metrics_run (ops : AnalyticOps) (g : ℕ → ℚ) (hs : List Holding) :
    Option RiskMetrics × List Holding :=
  (calculate_risk_metrics ops g hs, hs)

/-- `generate_rebalance_recommendations` with the holdings list threaded
through. -/
def generate_rebalance_recommendations_run (hs : List Holding)
    (target : Option (List (String × ℚ))) : List RebalanceRec × List Holding :=
  (generate_rebalance_recommendations hs target, hs)

/-- `project_dividend_income` with the holdings list threaded through. -/
def project_dividend_income_run (u : ℕ → ℚ) (hs : List Holding) :
    Option IncomeOut × List Holding :=
  (project_dividend_income u hs, hs)

/-- `calculate_efficient_frontier` with the holdings list threaded through. -/
def calculate_efficient_frontier_run (ops : AnalyticOps) (g u : ℕ → ℚ)
    (hs : List Holding) (np : ℕ) : Option FrontierOut × List Holding :=
  (calculate_efficient_frontier ops g u hs np, hs)

/-- `run_monte_carlo_simulation` with the holdings list threaded through. -/
def run_monte_carlo_simulation_run (ops : AnalyticOps) (g : ℕ → ℚ)
    (hs : List Holding) (years sims : ℕ) : Option MCOut × List Holding :=
  (run_monte_carlo_simulation ops g hs years sims, hs)

/-! Arithmetic facts about the rounding model. -/

theorem rhe_le {x : ℚ} {n : ℤ} (h : x ≤ n) : rhe x ≤ n := by
  unfold rhe
  have h0 : (⌊x⌋ : ℚ) ≤ x := Int.floor_le x
  have hf : ⌊x⌋ ≤ n := by
    have : (⌊x⌋ : ℚ) ≤ (n : ℚ) := le_trans h0 h
    exact_mod_cast this
  have hstep : (1 : ℚ)/2 ≤ x - ⌊x⌋ → ⌊x⌋ < n := by
    intro hr
    rcases lt_or_eq_of_le hf with hlt | heq
    · exact hlt
    · exfalso
      have hn : ((n : ℤ) : ℚ) ≤ x - 1/2 := by rw [← heq]; linarith
      have : (n : ℚ) ≤ (n : ℚ) - 1/2 := le_trans hn (by linarith)
      linarith
  split
  · exact hf
  · rename_i h2
    split
    · rename_i h3
      have := hstep (le_of_lt h3)
      omega
    · split
      · exact hf
      · have := hstep (not_lt.mp h2)
        omega

theorem rhe_ge {x : ℚ} {n : ℤ} (h : (n : ℚ) ≤ x) : n ≤ rhe x := by
  unfold rhe
  have hf : n ≤ ⌊x⌋ := Int.le_floor.mpr h
  split
  · exact hf
  · split
    · omega
    · split
      · exact hf
      · omega

theorem abs_rhe_sub (x : ℚ) : |((rhe x : ℤ) : ℚ) - x| ≤ 1/2 := by
  unfold rhe
  have h0 : (⌊x⌋ : ℚ) ≤ x := Int.floor_le x
  have h1 : x < (⌊x⌋ : ℚ) + 1 := Int.lt_floor_add_one x
  split
  · rename_i h2
    rw [abs_le]
    constructor <;> linarith
  · rename_i h2
    have h2' : (1 : ℚ)/2 ≤ x - ⌊x⌋ := not_lt.mp h2
    split
    · push_cast
      rw [abs_le]
      constructor <;> linarith
    · rename_i h3
      have h3' : x - (⌊x⌋ : ℚ) ≤ 1/2 := not_lt.mp h3
      split
      · rw [abs_le]
        constructor <;> linarith
      · push_cast
        rw [abs_le]
        constructor <;> linarith

theorem roundTo_nonneg (d : ℕ) {x : ℚ} (h : 0 ≤ x) : 0 ≤ roundTo d x := by
  unfold roundTo
  have : (0 : ℤ) ≤ rhe (x * 10 ^ d) := rhe_ge (by positivity)
  positivity

theorem roundTo_le_int (d : ℕ) {x : ℚ} {n : ℤ} (h : x ≤ n) : roundTo d x ≤ n := by
  unfold roundTo
  have hp : (0 : ℚ) < 10 ^ d := by positivity
  have h1 : x * 10 ^ d ≤ ((n * 10 ^ d : ℤ) : ℚ) := by
    push_cast
    exact mul_le_mul_of_nonneg_right h (le_of_lt hp)
  have h2 : rhe (x * 10 ^ d) ≤ n * 10 ^ d := rhe_le h1
  rw [div_le_iff hp]
  calc ((rhe (x * 10 ^ d) : ℤ) : ℚ) ≤ ((n * 10 ^ d : ℤ) : ℚ) := by exact_mod_cast h2
  _ = (n : ℚ) * 10 ^ d := by push_cast; ring

theorem abs_roundTo_sub (d : ℕ) (x : ℚ) : |roundTo d x - x| ≤ 1 / (2 * 10 ^ d) := by
  unfold roundTo
  have hp : (0 : ℚ) < 10 ^ d := by positivity
  have h := abs_rhe_sub (x * 10 ^ d)
  have key : (rhe (x * 10 ^ d) : ℚ) / 10 ^ d - x = ((rhe (x * 10 ^ d) : ℚ) - x * 10 ^ d) / 10 ^ d := by
    field_simp
    ring
  rw [key, abs_div, abs_of_pos hp, div_le_div_iff hp (by positivity)]
  calc |((rhe (x * 10 ^ d) : ℤ) : ℚ) - x * 10 ^ d| * (2 * 10 ^ d)
      ≤ (1/2) * (2 * 10 ^ d) := by
        apply mul_le_mul_of_nonneg_right h (by positivity)
  _ = 1 * 10 ^ d := by ring

/-- The rounded one-decimal outputs are integer multiples of 1/10. -/
theorem roundTo_den (d : ℕ) (x : ℚ) : ∃ k : ℤ, roundTo d x = (k : ℚ) / 10 ^ d :=
  ⟨rhe (x * 10 ^ d), rfl⟩

/-- If two quantities differ by strictly more than 2/100, their
percentage representations rounded to one decimal differ by at least 2. -/
theorem two_le_roundTo1_diff {a b : ℚ} (h : 2/100 < |b - a|) :
    2 ≤ |roundTo 1 (b * 100) - roundTo 1 (a * 100)| := by
  obtain ⟨k, hk⟩ := roundTo_den 1 (b * 100)
  obtain ⟨m, hm⟩ := roundTo_den 1 (a * 100)
  have hb := abs_roundTo_sub 1 (b * 100)
  have ha := abs_roundTo_sub 1 (a * 100)
  norm_num at hb ha
  have h100 : (2 : ℚ) < |b * 100 - a * 100| := by
    have habs : |b * 100 - a * 100| = |b - a| * 100 := by
      rw [show b * 100 - a * 100 = (b - a) * 100 by ring, abs_mul]
      norm_num
    rw [habs]
    nlinarith [abs_nonneg (b - a)]
  have t1 : |b * 100 - a * 100| ≤ |roundTo 1 (b * 100) - roundTo 1 (a * 100)| +
      (|roundTo 1 (b * 100) - b * 100| + |roundTo 1 (a * 100) - a * 100|) := by
    have e : b * 100 - a * 100 =
        (roundTo 1 (b * 100) - roundTo 1 (a * 100)) +
        ((b * 100 - roundTo 1 (b * 100)) + (roundTo 1 (a * 100) - a * 100)) := by ring
    rw [e]
    refine le_trans (abs_add _ _) ?_
    have t2 := abs_add (b * 100 - roundTo 1 (b * 100)) (roundTo 1 (a * 100) - a * 100)
    have t3 : |b * 100 - roundTo 1 (b * 100)| = |roundTo 1 (b * 100) - b * 100| :=
      abs_sub_comm _ _
    linarith
  have hd : (19 : ℚ)/10 < |roundTo 1 (b * 100) - roundTo 1 (a * 100)| := by linarith
  have hkm : |roundTo 1 (b * 100) - roundTo 1 (a * 100)| = ((|k - m| : ℤ) : ℚ) / 10 := by
    rw [hk, hm]
    have e2 : (k : ℚ) / 10 ^ 1 - (m : ℚ) / 10 ^ 1 = ((k - m : ℤ) : ℚ) / 10 := by
      push_cast
      ring
    rw [e2, abs_div, Int.cast_abs, abs_of_pos (by norm_num : (0 : ℚ) < 10)]
  rw [hkm] at hd ⊢
  have hgt : (19 : ℤ) < |k - m| := by
    by_contra hc
    push_neg at hc
    have : ((|k - m| : ℤ) : ℚ) ≤ 19 := by exact_mod_cast hc
    linarith
  have h20 : (20 : ℚ) ≤ ((|k - m| : ℤ) : ℚ) := by exact_mod_cast (by omega : (20 : ℤ) ≤ |k - m|)
  linarith

/-! Facts about the stable sort model. -/

theorem mem_insertOn {key : α → ℚ} {x a : α} {l : List α} :
    a ∈ insertOn key x l ↔ a = x ∨ a ∈ l := by
  induction l with
  | nil => simp [insertOn]
  | cons y ys ih =>
    unfold insertOn
    split
    · simp only [List.mem_cons, ih]
      tauto
    · simp [List.mem_cons]

theorem pairwise_insertOn {key : α → ℚ} {x : α} {l : List α}
    (h : l.Pairwise (fun a b => key a ≤ key b)) :
    (insertOn key x l).Pairwise (fun a b => key a ≤ key b) := by
  induction l with
  | nil => simp [insertOn]
  | cons y ys ih =>
    unfold insertOn
    rcases List.pairwise_cons.mp h with ⟨hy, hys⟩
    split
    · rename_i hlt
      refine List.pairwise_cons.mpr ⟨?_, ih hys⟩
      intro a ha
      rcases mem_insertOn.mp ha with rfl | ha'
      · exact le_of_lt hlt
      · exact hy a ha'
    · rename_i hge
      refine List.pairwise_cons.mpr ⟨?_, h⟩
      intro a ha
      rcases List.mem_cons.mp ha with rfl | ha'
      · exact not_lt.mp hge
      · exact le_trans (not_lt.mp hge) (hy a ha')

theorem pairwise_sortOn (key : α → ℚ) (l : List α) :
    (sortOn key l).Pairwise (fun a b => key a ≤ key b) := by
  induction l with
  | nil => exact List.Pairwise.nil
  | cons x xs ih => exact pairwise_insertOn ih

theorem mem_sortOn {key : α → ℚ} {a : α} {l : List α} :
    a ∈ sortOn key l ↔ a ∈ l := by
  induction l with
  | nil => simp [sortOn]
  | cons x xs ih =>
    unfold sortOn
    rw [mem_insertOn, ih, List.mem_cons]

/-! Facts about the sector-bucket model. -/

theorem bump_sum (k : String) (v : ℚ) (l : List (String × ℚ)) :
    ((bump k v l).map (·.2)).sum = v + (l.map (·.2)).sum := by
  induction l with
  | nil => simp [bump]
  | cons p t ih =>
    unfold bump
    split
    · simp
      ring
    · simp [ih]
      ring

theorem bump_nonneg {k : String} {v : ℚ} (hv : 0 ≤ v) :
    ∀ l : List (String × ℚ), (∀ p ∈ l, 0 ≤ p.2) → ∀ p ∈ bump k v l, 0 ≤ p.2
  | [], _, p, hp => by
    simp [bump] at hp
    simp [hp, hv]
  | (k', v') :: t, hl, p, hp => by
    unfold bump at hp
    by_cases hk : k' = k
    · rw [if_pos hk] at hp
      rcases List.mem_cons.mp hp with rfl | hp'
      · have h2 : (0 : ℚ) ≤ v' := hl (k', v') (List.mem_cons_self _ _)
        simpa using add_nonneg h2 hv
      · exact hl p (List.mem_cons_of_mem _ hp')
    · rw [if_neg hk] at hp
      rcases List.mem_cons.mp hp with rfl | hp'
      · exact hl (k', v') (List.mem_cons_self _ _)
      · exact bump_nonneg hv t (fun r hr => hl r (List.mem_cons_of_mem _ hr)) p hp'

theorem sectorBuckets_core_sum (hs : List Holding) (acc : List (String × ℚ)) :
    ((hs.foldl (fun a h => bump (h.sector.getD "Other") (h.quantity * h.current_price) a) acc).map
      (·.2)).sum = (acc.map (·.2)).sum + totalValue hs := by
  induction hs generalizing acc with
  | nil => simp [totalValue]
  | cons h t ih =>
    simp only [List.foldl_cons, ih, bump_sum, totalValue, List.map_cons, List.sum_cons]
    ring

/-- The sector buckets partition the total market value. -/
theorem sectorBuckets_sum (hs : List Holding) :
    (((sectorBuckets hs).map (·.2)).sum) = totalValue hs := by
  unfold sectorBuckets
  rw [sectorBuckets_core_sum]
  simp

theorem sectorBuckets_core_nonneg (hs : List Holding) (acc : List (String × ℚ))
    (hhs : ∀ h ∈ hs, 0 ≤ h.quantity * h.current_price) (hacc : ∀ p ∈ acc, 0 ≤ p.2) :
    ∀ p ∈ hs.foldl (fun a h => bump (h.sector.getD "Other") (h.quantity * h.current_price) a) acc,
      0 ≤ p.2 := by
  induction hs generalizing acc with
  | nil => simpa using hacc
  | cons h t ih =>
    simp only [List.foldl_cons]
    exact ih _ (fun x hx => hhs x (List.mem_cons_of_mem h hx))
      (bump_nonneg (hhs h (List.mem_cons_self h t)) acc hacc)

/-- Bucket values are non-negative when every holding value is. -/
theorem sectorBuckets_nonneg {hs : List Holding}
    (hhs : ∀ h ∈ hs, 0 ≤ h.quantity * h.current_price) :
    ∀ p ∈ sectorBuckets hs, 0 ≤ p.2 :=
  sectorBuckets_core_nonneg hs [] hhs (by simp)

/-! Miscellaneous list facts. -/

theorem le_foldl_max (t : List ℚ) (x : ℚ) : x ≤ t.foldl max x := by
  induction t generalizing x with
  | nil => simp
  | cons y ys ih => exact le_trans (le_max_left x y) (ih (max x y))

theorem sum_map_div (l : List ℚ) (t : ℚ) : (l.map (· / t)).sum = l.sum / t := by
  induction l with
  | nil => simp
  | cons x xs ih => simp [ih, add_div]

/-! Claim C2. -/

/-- C2: the claim says that on a non-empty holdings list whose total cost
basis is zero, `calculate_portfolio_health_score` and
`project_dividend_income` return structurally valid results with the
affected quotient evaluated to 0 and never raise.  The code instead guards
both yield-on-cost quotients with `if holdings` rather than with a test of
the denominator, so both functions raise `ZeroDivisionError` on such input:
on the single zero-cost-basis holding `zeroCB` both embedded functions
evaluate to `none` (the model of the raise). -/
theorem c2_zero_cost_basis_raises :
    calculate_portfolio_health_score s0 [zeroCB] = none ∧
    project_dividend_income u0 [zeroCB] = none := by
  constructor
  · norm_num [calculate_portfolio_health_score, totalCost, zeroCB]
  · norm_num [project_dividend_income, totalCost, zeroCB]

/-! Claim C3. -/

/-- C3 counterexample: the claim says a single-holding list yields the empty
dict, but `calculate_risk_metrics` only short-circuits on the empty list;
on the one-element list `[aaa]` it returns a populated metrics dict. -/
theorem c3_counterexample :
    (calculate_risk_metrics ops0 g0 [aaa]).isSome = true := rfl

/-- C3 amended: `calculate_risk_metrics` returns the empty dict (`none`)
exactly for a zero-length holdings list; every non-empty list, including a
single holding, produces a populated metrics dict. -/
theorem c3_empty_dict_iff_empty (ops : AnalyticOps) (g : ℕ → ℚ) (hs : List Holding) :
    (hs = [] → calculate_risk_metrics ops g hs = none) ∧
    (hs ≠ [] → (calculate_risk_metrics ops g hs).isSome = true) := by
  constructor
  · rintro rfl
    rfl
  · intro hne
    match hs, hne with
    | h :: t, _ => rfl

/-- C3 witness: the amended statement evaluated at the empty list and at the
concrete single holding `aaa`. -/
theorem c3_empty_dict_iff_empty_witness :
    calculate_risk_metrics ops0 g0 [] = none ∧
    (calculate_risk_metrics ops0 g0 [aaa]).isSome = true :=
  ⟨(c3_empty_dict_iff_empty ops0 g0 []).1 rfl,
   (c3_empty_dict_iff_empty ops0 g0 [aaa]).2 (List.cons_ne_nil aaa [])⟩

/-! Claim C8. -/

/-- C8: determinism as a two-run property.  Each embedded analytics
component is a function of its input holdings and of its explicit random
source (the streams `g`, `u` and the abstracted analytic operations), so two
calls with identical inputs and an identical random source give identical
outputs. -/
theorem c8_two_run_determinism (sqrtA : ℚ → ℚ) (ops : AnalyticOps) (g u : ℕ → ℚ)
    (hs : List Holding) (target : Option (List (String × ℚ))) (np years sims : ℕ) :
    calculate_portfolio_health_score sqrtA hs = calculate_portfolio_health_score sqrtA hs ∧
    generate_ai_insights hs = generate_ai_insights hs ∧
    calculate_risk_metrics ops g hs = calculate_risk_metrics ops g hs ∧
    generate_rebalance_recommendations hs target = generate_rebalance_recommendations hs target ∧
    project_dividend_income u hs = project_dividend_income u hs ∧
    calculate_efficient_frontier ops g u hs np = calculate_efficient_frontier ops g u hs np ∧
    run_monte_carlo_simulation ops g hs years sims = run_monte_carlo_simulation ops g hs years sims :=
  ⟨rfl, rfl, rfl, rfl, rfl, rfl, rfl⟩

/-! Claim C9. -/

/-- C9: no analytics component mutates its input.  In the state-passing
embeddings, which thread the caller-visible holdings list through each call
(the source bodies contain no in-place write to a holding or to the list),
the holdings list coming out of every component equals the list going in. -/
theorem c9_no_mutation (sqrtA : ℚ → ℚ) (ops : AnalyticOps) (g u : ℕ → ℚ)
    (hs : List Holding) (target : Option (List (String × ℚ))) (np years sims : ℕ) :
    (calculate_portfolio_health_score_run sqrtA hs).2 = hs ∧
    (generate_ai_insights_run hs).2 = hs ∧
    (calculate_risk_metrics_run ops g hs).2 = hs ∧
    (generate_rebalance_recommendations_run hs target).2 = hs ∧
    (project_dividend_income_run u hs).2 = hs ∧
    (calculate_efficient_frontier_run ops g u hs np).2 = hs ∧
    (run_monte_carlo_simulation_run ops g hs years sims).2 = hs :=
  ⟨rfl, rfl, rfl, rfl, rfl, rfl, rfl⟩

/-! Claim C10. -/

/-- C10: whenever `calculate_portfolio_health_score` returns normally on a
non-empty holdings list, the returned score is the sum of the five returned
factor values (each already rounded to one decimal), the total rounded to
one decimal. -/
theorem c10_score_is_sum_of_factors (sqrtA : ℚ → ℚ) (hs : List Holding)
    (r : HealthResult) (hne : hs ≠ [])
    (h : calculate_portfolio_health_score sqrtA hs = some r) :
    ∃ f, r.factors = some f ∧
      r.score = roundTo 1 (f.diversification + f.risk_adjusted + f.income_quality +
        f.tax_efficiency + f.concentration) := by
  match hs, hne with
  | h0 :: t, _ =>
    unfold calculate_portfolio_health_score at h
    dsimp only at h
    split at h
    · exact absurd h (by simp)
    · rw [Option.some_inj] at h
      subst h
      exact ⟨_, rfl, rfl⟩

/-- C10 witness: the theorem applied to the concrete holding `aaa`, whose
health score is 15 = 0 + 0 + 0 + 15 + 0. -/
theorem c10_score_is_sum_of_factors_witness :
    ∃ f, (HealthResult.mk 15 "D" (some (HealthFactors.mk 0 0 0 15 0))).factors = some f ∧
      (HealthResult.mk 15 "D" (some (HealthFactors.mk 0 0 0 15 0))).score =
        roundTo 1 (f.diversification + f.risk_adjusted + f.income_quality +
          f.tax_efficiency + f.concentration) :=
  c10_score_is_sum_of_factors s0 [aaa] (HealthResult.mk 15 "D" (some (HealthFactors.mk 0 0 0 15 0)))
    (List.cons_ne_nil aaa [])
    (by norm_num [calculate_portfolio_health_score, diversificationScore, holdingGains, riskAdjustedScore, incomeQualityScore,
      taxEfficiencyScore, concentrationScore,
      sectorBuckets, bump, totalCost, meanQ,
      pymax, healthGrade, roundTo, rhe, aaa])

/-! Claim C4. -/

/-- C4 counterexample: on the spec's worked example `aaa` (a loss of exactly
$500), `generate_ai_insights` returns a list none of whose items is the
Tax-Loss-Harvesting opportunity the claim requires: the rule fires only for
a loss strictly greater than $500. -/
theorem c4_counterexample :
    (generate_ai_insights [aaa]).map (fun l => l.all (fun i => i.action != "tlh")) =
      some true := by
  norm_num [generate_ai_insights, totalValue, sectorBuckets, bump, bigWinners,
    sortOn, insertOn, insightPriority, aaa, List.filterMap_cons]
  decide

/-- C4 amended: on the worked example `aaa`, the health factors are as the
claim states (diversification 0, concentration 0, tax efficiency 15), but
`generate_ai_insights` contains no Tax-Loss-Harvesting item, because the
$500 unrealized loss is not strictly greater than the $500 threshold; the
returned items are exactly the High Concentration warning and the Sector
Overweight warning. -/
theorem c4_worked_example (sqrtA : ℚ → ℚ) :
    (calculate_portfolio_health_score sqrtA [aaa]).map (fun r =>
      r.factors.map (fun f => (f.diversification, f.concentration, f.tax_efficiency))) =
      some (some (0, 0, 15)) ∧
    generate_ai_insights [aaa] = some
      [{ itype := "warning", title := "High Concentration: AAA", action := "rebalance",
         priority := some 1 },
       { itype := "warning", title := "Sector Overweight: Tech", action := "diversify",
         priority := some 2 }] := by
  constructor
  · norm_num [calculate_portfolio_health_score, diversificationScore, holdingGains, riskAdjustedScore, incomeQualityScore,
      taxEfficiencyScore, concentrationScore,
      sectorBuckets, bump, totalCost, meanQ,
      pymax, roundTo, rhe, aaa]
  · norm_num [generate_ai_insights, totalValue, sectorBuckets, bump, bigWinners,
      sortOn, insertOn, insightPriority, aaa, List.filterMap_cons]
    decide

/-! Claim C5. -/

theorem bigWinners_isSome {hs : List Holding} (h : ∀ x ∈ hs, x.cost_basis ≠ 0) :
    ∃ ws, bigWinners hs = some ws := by
  induction hs with
  | nil => exact ⟨[], rfl⟩
  | cons a t ih =>
    obtain ⟨ws, hws⟩ := ih (fun x hx => h x (List.mem_cons_of_mem a hx))
    refine ⟨if (a.current_price - a.cost_basis) / a.cost_basis > 1 then a :: ws else ws, ?_⟩
    unfold bigWinners
    rw [if_neg (h a (List.mem_cons_self a t)), hws]
    rfl

/-- C5 counterexample: the claim quantifies over every holdings list, but on
a list containing a holding with zero cost basis `generate_ai_insights`
raises `ZeroDivisionError` in its big-winner rule instead of returning a
list at all (the embedding returns `none` there). -/
theorem c5_counterexample : generate_ai_insights [zeroCB] = none := by
  norm_num [generate_ai_insights, bigWinners, zeroCB]

/-- C5 amended: for every holdings list in which no holding has zero cost
basis, `generate_ai_insights` returns a list of at most 10 items sorted by
non-decreasing priority (a missing priority sorts as 99), and on the empty
list that list is exactly the single Get Started info item. -/
theorem c5_insights_capped_and_sorted (hs : List Holding)
    (hcb : ∀ h ∈ hs, h.cost_basis ≠ 0) :
    ∃ l, generate_ai_insights hs = some l ∧ l.length ≤ 10 ∧
      l.Pairwise (fun a b => insightPriority a ≤ insightPriority b) ∧
      (hs = [] → l = [{ itype := "info", title := "Get Started", action := "add_holding" }]) := by
  cases hs with
  | nil =>
    refine ⟨_, rfl, ?_, ?_, fun _ => rfl⟩
    · simp
    · simp
  | cons a t =>
    obtain ⟨ws, hws⟩ := bigWinners_isSome hcb
    have hgen : ∃ X, generate_ai_insights (a :: t) =
        some ((sortOn insightPriority X).take 10) := by
      unfold generate_ai_insights
      rw [hws]
      exact ⟨_, rfl⟩
    obtain ⟨X, hX⟩ := hgen
    refine ⟨_, hX, ?_, ?_, ?_⟩
    · exact List.length_take_le 10 _
    · exact List.Pairwise.sublist (List.take_sublist _ _) (pairwise_sortOn _ _)
    · intro h
      exact absurd h (List.cons_ne_nil a t)

/-- C5 witness: the amended statement evaluated at the concrete one-holding
list `[aaa]`, whose cost basis is 100. -/
theorem c5_insights_capped_and_sorted_witness :
    ∃ l, generate_ai_insights [aaa] = some l ∧ l.length ≤ 10 ∧
      l.Pairwise (fun a b => insightPriority a ≤ insightPriority b) ∧
      ([aaa] = ([] : List Holding) → l =
        [{ itype := "info", title := "Get Started", action := "add_holding" }]) :=
  c5_insights_capped_and_sorted [aaa] (by norm_num [aaa])

/-! Claim C6. -/

/-- C6 counterexample: the emission test compares the unrounded shares
(`abs(diff) > 0.02`), but the reported percentages are rounded to one
decimal, so an action can be emitted whose reported drift is exactly 2
(not strictly greater): a portfolio entirely in `Other` with an explicit
2.01% target for `Tech` yields an action with current 0.0, target 2.0. -/
theorem c6_counterexample :
    ∃ r ∈ generate_rebalance_recommendations [otherOnly] (some [("Tech", 201/10000)]),
      ¬(2 < |r.current_pct - r.target_pct|) := by
  have ha : roundTo 1 (0 : ℚ) = 0 := by norm_num [roundTo, rhe, Int.fract]
  have hb : roundTo 1 ((201 : ℚ)/100) = 2 := by norm_num [roundTo, rhe, Int.fract]
  have hc : roundTo 2 ((201 : ℚ)/100) = 201/100 := by norm_num [roundTo, rhe, Int.fract]
  have hf : bucketGet "Tech" [("Other", (100 : ℚ))] = 0 := by simp [bucketGet, List.find?]
  norm_num [generate_rebalance_recommendations, totalValue, sectorBuckets, bump,
    otherOnly, List.filterMap_cons, sortOn, insertOn, abs_of_nonneg, ha, hb, hc, hf]

/-- C6 amended: every emitted action corresponds to an unrounded drift
strictly above 2 percentage points, hence its reported (rounded) drift is at
least 2 — equality is possible after rounding, so `strictly greater than 2`
must weaken to `at least 2` on the reported fields; the list is sorted by
reported drift magnitude, descending. -/
theorem c6_rebalance_threshold_and_order (hs : List Holding)
    (target : Option (List (String × ℚ))) :
    (∀ r ∈ generate_rebalance_recommendations hs target,
      2 ≤ |r.current_pct - r.target_pct|) ∧
    (generate_rebalance_recommendations hs target).Pairwise
      (fun a b => |b.current_pct - b.target_pct| ≤ |a.current_pct - a.target_pct|) := by
  cases hs with
  | nil =>
    constructor
    · intro r hr
      simp [generate_rebalance_recommendations] at hr
    · simp [generate_rebalance_recommendations]
  | cons a t =>
    unfold generate_rebalance_recommendations
    dsimp only
    by_cases htv : totalValue (a :: t) = 0
    · rw [if_pos htv]
      constructor
      · intro r hr
        simp at hr
      · simp
    · rw [if_neg htv]
      constructor
      · intro r hr
        have hr' := mem_sortOn.mp hr
        rw [List.mem_filterMap] at hr'
        obtain ⟨st, hst, hreq⟩ := hr'
        split at hreq
        · rename_i hcond
          rw [Option.some_inj] at hreq
          subst hreq
          have hcond' : 2/100 <
              |bucketGet st.1 (sectorBuckets (a :: t)) / totalValue (a :: t) - st.2| := by
            rw [abs_sub_comm]
            exact hcond
          exact two_le_roundTo1_diff hcond'
        · exact absurd hreq (by simp)
      · refine (pairwise_sortOn _ _).imp ?_
        intro x y hxy
        linarith

/-- C6 witness: the amended statement applied to the concrete rebalance
example, whose single emitted action reports current 0.0 and target 2.0. -/
theorem c6_rebalance_threshold_and_order_witness :
    2 ≤ |(RebalanceRec.mk "Tech" "buy" 0 2 (201/100) []).current_pct -
      (RebalanceRec.mk "Tech" "buy" 0 2 (201/100) []).target_pct| :=
  (c6_rebalance_threshold_and_order [otherOnly] (some [("Tech", 201/10000)])).1
    (RebalanceRec.mk "Tech" "buy" 0 2 (201/100) [])
    (by
      have ha : roundTo 1 (0 : ℚ) = 0 := by norm_num [roundTo, rhe, Int.fract]
      have hb : roundTo 1 ((201 : ℚ)/100) = 2 := by norm_num [roundTo, rhe, Int.fract]
      have hc : roundTo 2 ((201 : ℚ)/100) = 201/100 := by norm_num [roundTo, rhe, Int.fract]
      have hf : bucketGet "Tech" [("Other", (100 : ℚ))] = 0 := by simp [bucketGet, List.find?]
      norm_num [generate_rebalance_recommendations, totalValue, sectorBuckets, bump,
        otherOnly, List.filterMap_cons, sortOn, insertOn, abs_of_nonneg, ha, hb, hc, hf]
      decide)

/-! Claim C7. -/

/-- A Herfindahl index of non-negative weights summing to a positive total
is at most 1. -/
theorem herfindahl_le_one (vals : List ℚ) (hnn : ∀ v ∈ vals, 0 ≤ v)
    (hpos : 0 < vals.sum) :
    ((vals.map (fun v => v / vals.sum)).map (fun w => w ^ 2)).sum ≤ 1 := by
  have h1 : ∀ v ∈ vals, (fun v => (v / vals.sum) ^ 2) v ≤ (fun v => v / vals.sum) v := by
    intro v hv
    have h0 : 0 ≤ v / vals.sum := div_nonneg (hnn v hv) (le_of_lt hpos)
    have hle : v / vals.sum ≤ 1 := by
      rw [div_le_one hpos]
      exact List.single_le_sum hnn v hv
    dsimp only
    nlinarith
  calc ((vals.map (fun v => v / vals.sum)).map (fun w => w ^ 2)).sum
      = (vals.map (fun v => (v / vals.sum) ^ 2)).sum := by
        rw [List.map_map]
        rfl
  _ ≤ (vals.map (fun v => v / vals.sum)).sum := List.sum_le_sum h1
  _ = vals.sum / vals.sum := sum_map_div vals vals.sum
  _ = 1 := div_self (ne_of_gt hpos)

/-- C7 counterexample: the claim quantifies over all holdings lists, but on
a two-holding list whose second position has a negative price the
diversification factor is −120, far outside the documented range [0, 25]
(the sector weight vector is (2, −1), whose Herfindahl index is 5). -/
theorem c7_counterexample :
    (calculate_portfolio_health_score s0 [posTech, negFin]).map (fun r =>
      r.factors.map (fun f => f.diversification)) = some (some (-120)) ∧
    ((-120 : ℚ) < 0) := by
  constructor
  · have hA : roundTo 1 ((-120 : ℚ)) = -120 := by norm_num [roundTo, rhe, Int.fract]
    simp [calculate_portfolio_health_score, diversificationScore, holdingGains, riskAdjustedScore, incomeQualityScore,
      taxEfficiencyScore, concentrationScore,
      sectorBuckets, bump, totalCost,
      meanQ, pymax, s0, posTech, negFin]
    norm_num [min_def, max_def, hA]
  · norm_num

theorem roundTo_le_lit (d : ℕ) {x B : ℚ} (hB : ∃ n : ℤ, (n : ℚ) = B) (h : x ≤ B) :
    roundTo d x ≤ B := by
  obtain ⟨n, rfl⟩ := hB
  exact roundTo_le_int d h

theorem diversificationScore_bounds (hs : List Holding)
    (hnn : ∀ h ∈ hs, 0 ≤ h.quantity * h.current_price) :
    0 ≤ diversificationScore hs ∧ diversificationScore hs ≤ 25 := by
  unfold diversificationScore
  dsimp only
  split
  · rename_i hpos
    constructor
    · apply le_min (by norm_num)
      have hvals : ∀ v ∈ (sectorBuckets hs).map (·.2), 0 ≤ v := by
        intro v hv
        rw [List.mem_map] at hv
        obtain ⟨p, hp, rfl⟩ := hv
        exact sectorBuckets_nonneg hnn p hp
      have hH := herfindahl_le_one ((sectorBuckets hs).map (·.2)) hvals hpos
      have hmm : ((sectorBuckets hs).map (·.2)).map
          (fun v => v / ((sectorBuckets hs).map (·.2)).sum) =
          (sectorBuckets hs).map (fun s => s.2 / ((sectorBuckets hs).map (·.2)).sum) := by
        simp
      rw [hmm] at hH
      linarith
    · exact min_le_left _ _
  · norm_num

theorem riskAdjustedScore_bounds (sqrtA : ℚ → ℚ) (hs : List Holding) :
    0 ≤ riskAdjustedScore sqrtA hs ∧ riskAdjustedScore sqrtA hs ≤ 25 :=
  ⟨le_min (by norm_num) (le_max_left _ _), min_le_left _ _⟩

theorem incomeQualityScore_bounds (hs : List Holding) (hd : 0 < totalCost hs)
    (hnn : ∀ h ∈ hs, 0 ≤ h.annual_dividend * h.quantity) :
    0 ≤ incomeQualityScore hs ∧ incomeQualityScore hs ≤ 20 := by
  unfold incomeQualityScore
  dsimp only
  constructor
  · apply le_min (by norm_num)
    apply mul_nonneg _ (by norm_num)
    apply div_nonneg _ (le_of_lt hd)
    apply List.sum_nonneg
    intro x hx
    rw [List.mem_map] at hx
    obtain ⟨h, hh, rfl⟩ := hx
    exact hnn h hh
  · exact min_le_left _ _

theorem taxEfficiencyScore_bounds (hs : List Holding) :
    0 ≤ taxEfficiencyScore hs ∧ taxEfficiencyScore hs ≤ 15 := by
  unfold taxEfficiencyScore
  dsimp only
  split <;> norm_num

theorem concentrationScore_bounds (hs : List Holding)
    (hnn : ∀ h ∈ hs, 0 ≤ h.quantity * h.current_price) :
    0 ≤ concentrationScore hs ∧ concentrationScore hs ≤ 15 := by
  unfold concentrationScore
  dsimp only
  split
  · rename_i hpos
    cases hs with
    | nil =>
      exfalso
      simp [sectorBuckets] at hpos
    | cons a t =>
      rw [List.map_cons]
      simp only [pymax]
      constructor
      · exact le_max_left _ _
      · apply max_le (by norm_num)
        have hfa : 0 ≤ a.quantity * a.current_price /
            ((sectorBuckets (a :: t)).map (·.2)).sum :=
          div_nonneg (hnn a (List.mem_cons_self a t)) (le_of_lt hpos)
        have hM := le_trans hfa (le_foldl_max
          (t.map (fun h => h.quantity * h.current_price /
            ((sectorBuckets (a :: t)).map (·.2)).sum))
          (a.quantity * a.current_price / ((sectorBuckets (a :: t)).map (·.2)).sum))
        linarith
  · norm_num

/-- C7 amended: for every holdings list whose quantities, prices, cost
bases and dividends are non-negative and whose total cost basis is positive
(or whose list is empty), `calculate_portfolio_health_score` returns a
result whose score lies in [0, 100] and whose factors lie in their
documented sub-ranges.  The original claim, quantified over all holdings
lists, fails both on negative-price inputs (factor out of range, see the
counterexample) and on zero-total-cost-basis inputs (the function raises,
claims C2). -/
theorem c7_health_score_ranges (sqrtA : ℚ → ℚ) (hs : List Holding)
    (hpos : ∀ h ∈ hs, 0 ≤ h.quantity ∧ 0 ≤ h.current_price ∧ 0 ≤ h.cost_basis ∧
      0 ≤ h.annual_dividend)
    (hcb : hs = [] ∨ 0 < totalCost hs) :
    ∃ r, calculate_portfolio_health_score sqrtA hs = some r ∧
      (0 ≤ r.score ∧ r.score ≤ 100) ∧
      ∀ f, r.factors = some f →
        ((0 ≤ f.diversification ∧ f.diversification ≤ 25) ∧
         (0 ≤ f.risk_adjusted ∧ f.risk_adjusted ≤ 25) ∧
         (0 ≤ f.income_quality ∧ f.income_quality ≤ 20) ∧
         (0 ≤ f.tax_efficiency ∧ f.tax_efficiency ≤ 15) ∧
         (0 ≤ f.concentration ∧ f.concentration ≤ 15)) := by
  cases hs with
  | nil =>
    refine ⟨_, rfl, ⟨by norm_num, by norm_num⟩, ?_⟩
    intro f hf
    exact absurd hf (by simp)
  | cons a t =>
    have hcb' : 0 < totalCost (a :: t) := hcb.resolve_left (by simp)
    have hqp : ∀ h ∈ a :: t, 0 ≤ h.quantity * h.current_price := fun h hh =>
      mul_nonneg (hpos h hh).1 (hpos h hh).2.1
    have had : ∀ h ∈ a :: t, 0 ≤ h.annual_dividend * h.quantity := fun h hh =>
      mul_nonneg (hpos h hh).2.2.2 (hpos h hh).1
    have hD := diversificationScore_bounds (a :: t) hqp
    have hR := riskAdjustedScore_bounds sqrtA (a :: t)
    have hI := incomeQualityScore_bounds (a :: t) hcb' had
    have hT := taxEfficiencyScore_bounds (a :: t)
    have hC := concentrationScore_bounds (a :: t) hqp
    have lD : 0 ≤ roundTo 1 (diversificationScore (a :: t)) := roundTo_nonneg 1 hD.1
    have lR : 0 ≤ roundTo 1 (riskAdjustedScore sqrtA (a :: t)) := roundTo_nonneg 1 hR.1
    have lI : 0 ≤ roundTo 1 (incomeQualityScore (a :: t)) := roundTo_nonneg 1 hI.1
    have lT : 0 ≤ roundTo 1 (taxEfficiencyScore (a :: t)) := roundTo_nonneg 1 hT.1
    have lC : 0 ≤ roundTo 1 (concentrationScore (a :: t)) := roundTo_nonneg 1 hC.1
    have uD : roundTo 1 (diversificationScore (a :: t)) ≤ 25 :=
      roundTo_le_lit 1 ⟨25, by norm_num⟩ hD.2
    have uR : roundTo 1 (riskAdjustedScore sqrtA (a :: t)) ≤ 25 :=
      roundTo_le_lit 1 ⟨25, by norm_num⟩ hR.2
    have uI : roundTo 1 (incomeQualityScore (a :: t)) ≤ 20 :=
      roundTo_le_lit 1 ⟨20, by norm_num⟩ hI.2
    have uT : roundTo 1 (taxEfficiencyScore (a :: t)) ≤ 15 :=
      roundTo_le_lit 1 ⟨15, by norm_num⟩ hT.2
    have uC : roundTo 1 (concentrationScore (a :: t)) ≤ 15 :=
      roundTo_le_lit 1 ⟨15, by norm_num⟩ hC.2
    unfold calculate_portfolio_health_score
    dsimp only
    rw [if_neg (ne_of_gt hcb')]
    refine ⟨_, rfl, ⟨?_, ?_⟩, ?_⟩
    · exact roundTo_nonneg 1 (by linarith)
    · exact roundTo_le_lit 1 ⟨100, by norm_num⟩ (by linarith)
    · intro f hf
      rw [Option.some_inj] at hf
      subst hf
      exact ⟨⟨lD, uD⟩, ⟨lR, uR⟩, ⟨lI, uI⟩, ⟨lT, uT⟩, ⟨lC, uC⟩⟩


/-- C7 witness: the amended statement applied to the concrete holding
`aaa`, whose fields are non-negative and whose total cost basis is 1000. -/
theorem c7_health_score_ranges_witness :
    ∃ r, calculate_portfolio_health_score s0 [aaa] = some r ∧
      (0 ≤ r.score ∧ r.score ≤ 100) ∧
      ∀ f, r.factors = some f →
        ((0 ≤ f.diversification ∧ f.diversification ≤ 25) ∧
         (0 ≤ f.risk_adjusted ∧ f.risk_adjusted ≤ 25) ∧
         (0 ≤ f.income_quality ∧ f.income_quality ≤ 20) ∧
         (0 ≤ f.tax_efficiency ∧ f.tax_efficiency ≤ 15) ∧
         (0 ≤ f.concentration ∧ f.concentration ≤ 15)) :=
  c7_health_score_ranges s0 [aaa] (by norm_num [aaa])
    (Or.inr (by norm_num [totalCost, aaa]))

/-! Claim C1. -/

/-- C1 counterexample: the claim says both optimizers reject fewer than 2
holdings with an explicit error, but `run_monte_carlo_simulation` on the
single holding `aaa` returns a populated (non-error) result. -/
theorem c1_counterexample :
    (run_monte_carlo_simulation ops0 g0 [aaa] 0 1).map MCOut.isErr = some false := rfl

/-- C1 amended: `calculate_efficient_frontier` returns its explicit error
dict for fewer than 2 holdings and a populated result for at least 2
(whenever at least one random portfolio is sampled, as the default 100 is);
`run_monte_carlo_simulation`, whose guard is only `if not holdings`,
returns its error dict exactly for the empty list and a populated result
for every non-empty list — including a single holding, where the original
claim demanded an error (whenever at least one simulation runs, as the
default 1000 does). -/
theorem c1_error_only_for_short_input (ops : AnalyticOps) (g u : ℕ → ℚ)
    (hs : List Holding) (np years sims : ℕ) :
    (hs.length < 2 →
      calculate_efficient_frontier ops g u hs np =
        some (.error "Need at least 2 holdings for optimization")) ∧
    (2 ≤ hs.length → 1 ≤ np →
      ∃ s, calculate_efficient_frontier ops g u hs np = some (.ok s)) ∧
    (hs = [] →
      run_monte_carlo_simulation ops g hs years sims =
        some (.error "No holdings for simulation")) ∧
    (hs ≠ [] → 1 ≤ sims →
      ∃ s, run_monte_carlo_simulation ops g hs years sims = some (.ok s)) := by
  refine ⟨?_, ?_, ?_, ?_⟩
  · intro h
    unfold calculate_efficient_frontier
    rw [if_pos h]
  · intro h2 hnp
    obtain ⟨m, rfl⟩ : ∃ m, np = m + 1 := ⟨np - 1, by omega⟩
    unfold calculate_efficient_frontier
    rw [if_neg (not_lt.mpr h2)]
    dsimp only
    rw [List.range_succ_eq_map m]
    dsimp only [List.map_cons]
    exact ⟨_, rfl⟩
  · rintro rfl
    rfl
  · intro hne hsims
    obtain ⟨a, t, rfl⟩ : ∃ a t, hs = a :: t := by
      cases hs with
      | nil => exact absurd rfl hne
      | cons a t => exact ⟨a, t, rfl⟩
    obtain ⟨m, rfl⟩ : ∃ m, sims = m + 1 := ⟨sims - 1, by omega⟩
    unfold run_monte_carlo_simulation
    dsimp only
    rw [List.range_succ_eq_map m]
    dsimp only [List.map_cons]
    exact ⟨_, rfl⟩


/-- C1 witness: the amended statement at concrete inputs — one holding is
rejected by the frontier but accepted by the Monte Carlo simulation, two
holdings are accepted by the frontier, the empty list is rejected by the
Monte Carlo simulation. -/
theorem c1_error_only_for_short_input_witness :
    calculate_efficient_frontier ops0 g0 u0 [aaa] 1 =
      some (.error "Need at least 2 holdings for optimization") ∧
    (∃ s, calculate_efficient_frontier ops0 g0 u0 [aaa, bbb] 1 = some (.ok s)) ∧
    run_monte_carlo_simulation ops0 g0 [] 10 1000 =
      some (.error "No holdings for simulation") ∧
    (∃ s, run_monte_carlo_simulation ops0 g0 [aaa] 0 1 = some (.ok s)) :=
  ⟨(c1_error_only_for_short_input ops0 g0 u0 [aaa] 1 0 0).1 (by simp),
   (c1_error_only_for_short_input ops0 g0 u0 [aaa, bbb] 1 0 0).2.1 (by simp) (by norm_num),
   (c1_error_only_for_short_input ops0 g0 u0 [] 1 10 1000).2.2.1 rfl,
   (c1_error_only_for_short_input ops0 g0 u0 [aaa] 1 0 1).2.2.2 (by simp) (by norm_num)⟩

/-- C4 witness: the worked-example statement instantiated at the concrete
abstracted square root `s0` (never consulted for a single holding). -/
theorem c4_worked_example_witness :
    (calculate_portfolio_health_score s0 [aaa]).map (fun r =>
      r.factors.map (fun f => (f.diversification, f.concentration, f.tax_efficiency))) =
      some (some (0, 0, 15)) ∧
    generate_ai_insights [aaa] = some
      [{ itype := "warning", title := "High Concentration: AAA", action := "rebalance",
         priority := some 1 },
       { itype := "warning", title := "Sector Overweight: Tech", action := "diversify",
         priority := some 2 }] :=
  c4_worked_example s0

/-- C8 witness: the determinism statement instantiated at concrete inputs. -/
theorem c8_two_run_determinism_witness :
    calculate_portfolio_health_score s0 [aaa] = calculate_portfolio_health_score s0 [aaa] ∧
    generate_ai_insights [aaa] = generate_ai_insights [aaa] ∧
    calculate_risk_metrics ops0 g0 [aaa] = calculate_risk_metrics ops0 g0 [aaa] ∧
    generate_rebalance_recommendations [aaa] none = generate_rebalance_recommendations [aaa] none ∧
    project_dividend_income u0 [aaa] = project_dividend_income u0 [aaa] ∧
    calculate_efficient_frontier ops0 g0 u0 [aaa] 100 =
      calculate_efficient_frontier ops0 g0 u0 [aaa] 100 ∧
    run_monte_carlo_simulation ops0 g0 [aaa] 10 1000 =
      run_monte_carlo_simulation ops0 g0 [aaa] 10 1000 :=
  c8_two_run_determinism s0 ops0 g0 u0 [aaa] none 100 10 1000

/-- C9 witness: the no-mutation statement instantiated at concrete inputs. -/
theorem c9_no_mutation_witness :
    (calculate_portfolio_health_score_run s0 [aaa]).2 = [aaa] ∧
    (generate_ai_insights_run [aaa]).2 = [aaa] ∧
    (calculate_risk_metrics_run ops0 g0 [aaa]).2 = [aaa] ∧
    (generate_rebalance_recommendations_run [aaa] none).2 = [aaa] ∧
    (project_dividend_income_run u0 [aaa]).2 = [aaa] ∧
    (calculate_efficient_frontier_run ops0 g0 u0 [aaa] 100).2 = [aaa] ∧
    (run_monte_carlo_simulation_run ops0 g0 [aaa] 10 1000).2 = [aaa] :=
  c9_no_mutation s0 ops0 g0 u0 [aaa] none 100 10 1000

end WealthPilot
